import Mathlib

/-!
Shallow embedding of `src/main.py` (Cayce Vault API) and proofs about the
three endpoint handlers `precision_search`, `insight_search` and
`health_check`.

The external collaborators (the Meilisearch client and the OpenAI client)
are modelled by passing their outcomes as explicit parameters: a successful
call yields `Except.ok` with the returned data, a call that raises an
exception yields `Except.error` with the exception's `str(...)` message.
Python dict lookups with `.get` are modelled with `Option` fields and
`Option.getD`.
-/

namespace CayceVault

/-- Truthiness test Python applies in `if not os.getenv(...)` and
`bool(os.getenv(...))`: an unset variable (`None`) and the empty string are
both falsy; any other string is truthy. -/
def pyFalsy : Option String → Bool
  | none => true
  | some s => s == ""

/-- The `fastapi.HTTPException` data as raised by the handlers: a status
code and a detail string. -/
structure HTTPError where
  status_code : Nat
  detail : String
deriving Repr, DecidableEq

/-- Python `str(e)` for a Starlette/FastAPI `HTTPException e`: its
`__str__` method returns the status code, a colon-space separator and the
detail. -/
def httpExcStr (e : HTTPError) : String :=
  toString e.status_code ++ ": " ++ e.detail

/-! ## Precision search (`POST /search/precision`) -/

/-- A raw hit from the `cayce_vault` index, as consumed by
`precision_search`: the fields the handler reads with `hit.get(...)`,
each possibly absent. -/
structure PrecHit where
  id : Option String
  reading_id : Option String
  reading_text : Option String
  date : Option String
  category : Option String
deriving Repr, DecidableEq

/-- The `SearchResult` pydantic model. -/
structure SearchResult where
  id : String
  reading_id : String
  text : String
  date : String
  category : String
deriving Repr, DecidableEq

/-- The `limit` passed in the precision search options. -/
def precisionLimit : Nat := 10

/-- The `attributesToRetrieve` list passed in the precision search
options. -/
def precisionAttributes : List String :=
  ["reading_id", "reading_text", "date", "category"]

/-- The body of the `for hit in results["hits"]` loop of `precision_search`:
`SearchResult(id=hit.get("id", hit.get("reading_id", "")), ...)`. -/
def formatHit (h : PrecHit) : SearchResult :=
  { id := h.id.getD (h.reading_id.getD "")
    reading_id := h.reading_id.getD ""
    text := h.reading_text.getD ""
    date := h.date.getD ""
    category := h.category.getD "" }

/-- Result of one request to `precision_search`: the HTTP-level outcome and
the number of times the external search call was issued. -/
structure PrecisionOutcome where
  result : Except HTTPError (List SearchResult)
  searchCalls : Nat
deriving Repr

/-- The `precision_search` handler. Its single `index.search` call either
returns a hit list or raises; the whole body is wrapped in
`try/except Exception`, which converts any exception into
`HTTPException(500, "Meilisearch error: " + str(e))`. The loop over hits is
`List.map formatHit`. -/
def precision_search (searchOutcome : Except String (List PrecHit)) :
    PrecisionOutcome :=
  match searchOutcome with
  | .error e =>
      { result := .error ⟨500, "Meilisearch error: " ++ e⟩, searchCalls := 1 }
  | .ok hits =>
      { result := .ok (hits.map formatHit), searchCalls := 1 }

/-! ## Insight search (`POST /search/insight`) -/

/-- A raw hit from the `cayce_chunks` index, as consumed by
`insight_search`: the two fields the handler reads. -/
structure InsHit where
  reading_id : Option String
  text : Option String
deriving Repr, DecidableEq

/-- The binding `rid = hit.get("reading_id", "Unknown")`. -/
def ridOf (h : InsHit) : String := h.reading_id.getD "Unknown"

/-- The binding `text = hit.get("text", "")`. -/
def textOf (h : InsHit) : String := h.text.getD ""

/-- The context fragment a processed hit contributes:
`f"[{rid}] {text}\n\n"`. -/
def block (h : InsHit) : String :=
  "[" ++ ridOf h ++ "] " ++ textOf h ++ "\n\n"

/-- One iteration of the `for hit in results["hits"]` loop of
`insight_search`, acting on the `(sources, context)` accumulator pair. -/
def insightStep (acc : List String × String) (h : InsHit) :
    List String × String :=
  if ridOf h ∈ acc.1 then acc
  else (acc.1 ++ [ridOf h], acc.2 ++ block h)

/-- The whole loop, started from `sources = []`, `context = ""`. -/
def insightAcc (hits : List InsHit) : List String × String :=
  hits.foldl insightStep ([], "")

/-- The `sources` list after the loop. -/
def sourcesOf (hits : List InsHit) : List String := (insightAcc hits).1

/-- The `context` string after the loop. -/
def contextOf (hits : List InsHit) : String := (insightAcc hits).2

/-- The test `not context.strip()`: true exactly when every character of the
string is whitespace (in particular when it is empty). -/
def isBlank (s : String) : Bool := s.data.all Char.isWhitespace

/-- The fixed answer returned when the context is blank. -/
def noRelevant : String := "No relevant Readings found for this query."

/-- The fixed disclaimer appended to every generated answer, exactly as the
adjacent string literals of the source concatenate. -/
def disclaimer : String :=
  "\n\n\n"
    ++ "<small>"
    ++ "---\n"
    ++ "© Edgar Cayce Foundation. All Readings are copyrighted and used for research purposes only.\n"
    ++ "Health-related information reflects historical practices and may be outdated or unsafe without medical supervision. "
    ++ "Consult a licensed physician before applying any health advice. This tool does not replace professional mental health or medical care.\n"
    ++ "Responses are AI-generated and may not accurately reflect the original source material or the views of the Edgar Cayce organizations."
    ++ "</small>"

/-- The `InsightResponse` pydantic model. -/
structure InsightResponse where
  answer : String
  sources : List String
deriving Repr, DecidableEq

/-- The two environment variables `insight_search` reads. -/
structure InsightEnv where
  openaiKey : Option String
  meiliKey : Option String
deriving Repr

/-- Result of one request to `insight_search`: the HTTP-level outcome and
whether each external service was actually called. -/
structure InsightOutcome where
  result : Except HTTPError InsightResponse
  searchCalled : Bool
  modelCalled : Bool
deriving Repr

/-- The `insight_search` handler. Everything happens inside
`try/except Exception`, and `HTTPException` is a subclass of `Exception`,
so the two credential `HTTPException`s raised at the top are themselves
caught by the handler's own `except` clause and re-raised as
`HTTPException(500, "Insight error: " + str(e))`, where `str` of an
`HTTPException` is `httpExcStr`. The search call and the chat-completion
call either return (`Except.ok`) or raise (`Except.error` carrying
`str(e)`); `.strip()` on the generated text is `String.trim`. -/
def insight_search (env : InsightEnv)
    (searchOutcome : Except String (List InsHit))
    (modelOutcome : Except String String) : InsightOutcome :=
  if pyFalsy env.openaiKey then
    { result := .error ⟨500, "Insight error: "
        ++ httpExcStr ⟨500, "Missing OPENAI_API_KEY in environment"⟩⟩
      searchCalled := false, modelCalled := false }
  else if pyFalsy env.meiliKey then
    { result := .error ⟨500, "Insight error: "
        ++ httpExcStr ⟨500, "Missing MEILISEARCH_MASTER_KEY in environment"⟩⟩
      searchCalled := false, modelCalled := false }
  else
    match searchOutcome with
    | .error e =>
        { result := .error ⟨500, "Insight error: " ++ e⟩
          searchCalled := true, modelCalled := false }
    | .ok hits =>
        if isBlank (contextOf hits) then
          { result := .ok ⟨noRelevant, []⟩
            searchCalled := true, modelCalled := false }
        else
          match modelOutcome with
          | .error e =>
              { result := .error ⟨500, "Insight error: " ++ e⟩
                searchCalled := true, modelCalled := true }
          | .ok content =>
              { result := .ok ⟨content.trim ++ disclaimer, sourcesOf hits⟩
                searchCalled := true, modelCalled := true }

/-! ## Health check (`GET /health`) -/

/-- The JSON object `health_check` returns on success. -/
structure HealthResponse where
  status : String
  meilisearch : Bool
  openai : String
deriving Repr, DecidableEq

/-- The `health_check` handler. `bool(meili.health())` either yields a
truthiness value or raises; the handler has no `try/except`, so an
exception raised by the probe propagates out of the handler
(`Except.error`), and FastAPI then answers with a 500, not with the JSON
body. -/
def health_check (openaiKey : Option String) (probe : Except String Bool) :
    Except String HealthResponse :=
  match probe with
  | .error e => .error e
  | .ok b =>
      .ok { status := "ok"
            meilisearch := b
            openai := if pyFalsy openaiKey then "missing" else "configured" }

/-! ## Spec-side helper definitions -/

/-- Keep, for each reading identifier, only the first hit carrying it
(first-occurrence deduplication of the hit list by `ridOf`). -/
def keepFirstByRid : List InsHit → List InsHit
  | [] => []
  | h :: t =>
      h :: keepFirstByRid (t.filter (fun g => decide (ridOf g ≠ ridOf h)))
termination_by l => l.length
decreasing_by
  simp only [List.length_cons]
  exact Nat.lt_succ_of_le (List.length_filter_le _ _)

/-- First-occurrence deduplication of a list of identifiers: emit each
distinct element once, in the order of its first occurrence. -/
def dedupFirst : List String → List String
  | [] => []
  | r :: rs => r :: dedupFirst (rs.filter (fun s => decide (s ≠ r)))
termination_by l => l.length
decreasing_by
  simp only [List.length_cons]
  exact Nat.lt_succ_of_le (List.length_filter_le _ _)

/-- Concatenation of the context fragments of a list of hits. -/
def concatBlocks : List InsHit → String
  | [] => ""
  | h :: t => block h ++ concatBlocks t

/-- Substring test used in counterexamples, on the underlying character
lists. -/
def strContains (hay needle : String) : Bool :=
  decide (needle.data <:+: hay.data)

/-! ## Lemmas about the insight loop -/

/-- Pointwise form of membership in `srcs ++ [r]`, as a `Bool` equation used
to combine filters. -/
theorem decide_notmem_append (srcs : List String) (r s : String) :
    (decide (s ∉ srcs) && decide (s ≠ r)) = decide (s ∉ srcs ++ [r]) := by
  by_cases h1 : s ∈ srcs <;> by_cases h2 : s = r <;>
    simp [h1, h2, List.mem_append]

/-- Filtering out already-seen identifiers and then the newly seen one is
filtering against the extended seen list. -/
theorem filter_rid_append (t : List InsHit) (srcs : List String) (r : String) :
    (t.filter (fun g => decide (ridOf g ∉ srcs))).filter
        (fun g => decide (ridOf g ≠ r)) =
      t.filter (fun g => decide (ridOf g ∉ srcs ++ [r])) := by
  rw [List.filter_filter]
  exact List.filter_congr fun g _ => by
    rw [Bool.and_comm]; exact decide_notmem_append srcs r (ridOf g)

/-- Characterization of the `insight_search` loop from an arbitrary
accumulator: it appends the identifiers, and the context fragments, of the
not-yet-seen hits, deduplicated by first occurrence. -/
theorem foldl_insightStep (hits : List InsHit) :
    ∀ (srcs : List String) (ctx : String),
      hits.foldl insightStep (srcs, ctx) =
        (srcs ++ (keepFirstByRid
            (hits.filter (fun g => decide (ridOf g ∉ srcs)))).map ridOf,
         ctx ++ concatBlocks (keepFirstByRid
            (hits.filter (fun g => decide (ridOf g ∉ srcs))))) := by
  induction hits with
  | nil => intro srcs ctx; simp [keepFirstByRid, concatBlocks]
  | cons h t ih =>
    intro srcs ctx
    by_cases hmem : ridOf h ∈ srcs
    · rw [List.foldl_cons]
      have hstep : insightStep (srcs, ctx) h = (srcs, ctx) := by
        simp [insightStep, hmem]
      rw [hstep, ih srcs ctx]
      have hf : (h :: t).filter (fun g => decide (ridOf g ∉ srcs)) =
          t.filter (fun g => decide (ridOf g ∉ srcs)) := by
        simp [List.filter, hmem]
      rw [hf]
    · rw [List.foldl_cons]
      have hstep : insightStep (srcs, ctx) h =
          (srcs ++ [ridOf h], ctx ++ block h) := by
        simp [insightStep, hmem]
      rw [hstep, ih (srcs ++ [ridOf h]) (ctx ++ block h)]
      have hf : (h :: t).filter (fun g => decide (ridOf g ∉ srcs)) =
          h :: t.filter (fun g => decide (ridOf g ∉ srcs)) := by
        simp [List.filter, hmem]
      rw [hf]
      rw [show keepFirstByRid
            (h :: t.filter (fun g => decide (ridOf g ∉ srcs))) =
          h :: keepFirstByRid
            ((t.filter (fun g => decide (ridOf g ∉ srcs))).filter
              (fun g => decide (ridOf g ≠ ridOf h))) from by
        rw [keepFirstByRid]]
      rw [filter_rid_append]
      simp [concatBlocks, List.append_assoc, String.append_assoc]

/-- The `sources` list produced by the loop is the identifier of each
first-occurrence hit, in order. -/
theorem sourcesOf_eq (hits : List InsHit) :
    sourcesOf hits = (keepFirstByRid hits).map ridOf := by
  have h := foldl_insightStep hits [] ""
  have hf : hits.filter (fun g => decide (ridOf g ∉ ([] : List String))) =
      hits := by
    simp
  rw [hf] at h
  unfold sourcesOf insightAcc
  rw [h]
  simp

/-- The `context` string produced by the loop is the concatenation of the
fragments of the first-occurrence hits, in order. -/
theorem contextOf_eq (hits : List InsHit) :
    contextOf hits = concatBlocks (keepFirstByRid hits) := by
  have h := foldl_insightStep hits [] ""
  have hf : hits.filter (fun g => decide (ridOf g ∉ ([] : List String))) =
      hits := by
    simp
  rw [hf] at h
  unfold contextOf insightAcc
  rw [h]
  exact String.empty_append _

/-! ## Lemmas about first-occurrence deduplication -/

/-- Mapping `ridOf` commutes with filtering by an identifier test. -/
theorem map_ridOf_filter (t : List InsHit) (r : String) :
    (t.filter (fun g => decide (ridOf g ≠ r))).map ridOf =
      (t.map ridOf).filter (fun s => decide (s ≠ r)) := by
  induction t with
  | nil => rfl
  | cons g t ih =>
    simp only [ne_eq, decide_not] at ih ⊢
    by_cases h : ridOf g = r <;> simp [List.filter, h, ih]

/-- The identifiers of the first-occurrence hits are the first-occurrence
deduplication of the identifier list. -/
theorem map_ridOf_keepFirstByRid (hits : List InsHit) :
    (keepFirstByRid hits).map ridOf = dedupFirst (hits.map ridOf) := by
  induction hits using keepFirstByRid.induct with
  | case1 => simp [keepFirstByRid, dedupFirst]
  | case2 h t ih =>
    rw [keepFirstByRid, List.map_cons, ih, map_ridOf_filter, List.map_cons,
      dedupFirst]

/-- First-occurrence deduplication preserves membership. -/
theorem mem_dedupFirst (x : String) (rs : List String) :
    x ∈ dedupFirst rs ↔ x ∈ rs := by
  induction rs using dedupFirst.induct with
  | case1 => simp [dedupFirst]
  | case2 r rs ih =>
    rw [dedupFirst]
    by_cases h : x = r
    · simp [h]
    · simp only [List.mem_cons, h, false_or]
      rw [ih]
      simp [h]

/-- First-occurrence deduplication yields a duplicate-free list. -/
theorem nodup_dedupFirst (rs : List String) : (dedupFirst rs).Nodup := by
  induction rs using dedupFirst.induct with
  | case1 => simp [dedupFirst]
  | case2 r rs ih =>
    rw [dedupFirst]
    refine List.Nodup.cons ?_ ih
    intro hmem
    rw [mem_dedupFirst] at hmem
    simp at hmem

/-! ## Consequences used by the claims -/

/-- The `sources` list never holds a duplicate. -/
theorem sourcesOf_nodup (hits : List InsHit) : (sourcesOf hits).Nodup := by
  rw [sourcesOf_eq, map_ridOf_keepFirstByRid]
  exact nodup_dedupFirst _

/-- An identifier is a source exactly when some hit carries it. -/
theorem mem_sourcesOf (r : String) (hits : List InsHit) :
    r ∈ sourcesOf hits ↔ r ∈ hits.map ridOf := by
  rw [sourcesOf_eq, map_ridOf_keepFirstByRid]
  exact mem_dedupFirst r _

/-- The opening bracket character occurs in every context fragment. -/
theorem lbracket_mem_block (h : InsHit) : '[' ∈ (block h).data := by
  unfold block
  rw [String.data_append, String.data_append, String.data_append,
    String.data_append]
  exact List.mem_append_left _ (List.mem_append_left _
    (List.mem_append_left _ (List.mem_append_left _ (by decide))))

/-- A string holding a non-whitespace character is not blank. -/
theorem isBlank_eq_false_of_mem (s : String) (c : Char) (hc : c ∈ s.data)
    (hw : c.isWhitespace = false) : isBlank s = false := by
  unfold isBlank
  rw [List.all_eq_false]
  exact ⟨c, hc, by simp [hw]⟩

/-- The context of a non-empty hit list is never blank: its very first
fragment contributes a non-whitespace bracket. -/
theorem isBlank_contextOf_cons (h : InsHit) (t : List InsHit) :
    isBlank (contextOf (h :: t)) = false := by
  rw [contextOf_eq, keepFirstByRid, concatBlocks]
  refine isBlank_eq_false_of_mem _ '[' ?_ (by decide)
  rw [String.data_append]
  exact List.mem_append_left _ (lbracket_mem_block h)

/-- The loop context is blank exactly when the hit list is empty. -/
theorem isBlank_contextOf_iff (hits : List InsHit) :
    isBlank (contextOf hits) = true ↔ hits = [] := by
  cases hits with
  | nil => simp [contextOf, insightAcc, isBlank]
  | cons h t =>
    rw [isBlank_contextOf_cons]
    simp

/-- A non-empty hit list yields a non-empty source list. -/
theorem sourcesOf_ne_nil (h : InsHit) (t : List InsHit) :
    sourcesOf (h :: t) ≠ [] := by
  rw [sourcesOf_eq, keepFirstByRid]
  simp

/-- The concatenated context exposes the fragment of every hit in the
list being concatenated. -/
theorem concatBlocks_split (l : List InsHit) (h : InsHit) (hm : h ∈ l) :
    ∃ pre post, concatBlocks l = pre ++ block h ++ post := by
  induction l with
  | nil => cases hm
  | cons g t ih =>
    rcases List.mem_cons.mp hm with heq | hmem
    · subst heq
      exact ⟨"", concatBlocks t, by
        rw [concatBlocks, String.empty_append]⟩
    · obtain ⟨pre, post, hsplit⟩ := ih hmem
      refine ⟨block g ++ pre, post, ?_⟩
      rw [concatBlocks, hsplit, String.append_assoc, String.append_assoc,
        String.append_assoc]

/-- Every first-occurrence hit's fragment appears inside the loop
context. -/
theorem contextOf_split (hits : List InsHit) (h : InsHit)
    (hm : h ∈ keepFirstByRid hits) :
    ∃ pre post, contextOf hits = pre ++ block h ++ post := by
  rw [contextOf_eq]
  exact concatBlocks_split _ h hm

/-! ## Claims -/

/-- Claim C1: the claim says a search-probe exception is caught and
reported as `meilisearch: false` with a 200 response. The handler has no
`try/except`, so the probe's exception propagates out of `health_check`
unchanged (and FastAPI then answers 500, not 200): the code contradicts
this claim. -/
theorem health_check_probe_error_propagates (openaiKey : Option String)
    (e : String) :
    health_check openaiKey (.error e) = .error e := rfl

/-- Claim C2 counterexample: with the model credential absent, the
endpoint does answer 500 and makes no external call, but the detail is
the catch-all-wrapped string, not the bare missing-credential message the
claim states. -/
theorem insight_missing_key_detail_cex :
    (insight_search ⟨none, some "masterkey"⟩ (.ok []) (.ok "text")).result =
      .error ⟨500, "Insight error: 500: Missing OPENAI_API_KEY in environment"⟩ ∧
    "Insight error: 500: Missing OPENAI_API_KEY in environment" ≠
      "Missing OPENAI_API_KEY in environment" := by
  exact ⟨rfl, by decide⟩

/-- Claim C2 (amended): with a required credential absent, the Insight
endpoint answers 500 without attempting any external call, and the detail
is the missing-credential message wrapped by the handler's own catch-all
(`"Insight error: 500: Missing ... in environment"`), because the
credential `HTTPException` raised inside the `try` block is itself caught
and re-raised. -/
theorem insight_missing_credentials (env : InsightEnv)
    (searchOutcome : Except String (List InsHit))
    (modelOutcome : Except String String) :
    (pyFalsy env.openaiKey = true →
      insight_search env searchOutcome modelOutcome =
        { result := .error ⟨500,
            "Insight error: 500: Missing OPENAI_API_KEY in environment"⟩
          searchCalled := false, modelCalled := false }) ∧
    (pyFalsy env.openaiKey = false → pyFalsy env.meiliKey = true →
      insight_search env searchOutcome modelOutcome =
        { result := .error ⟨500,
            "Insight error: 500: Missing MEILISEARCH_MASTER_KEY in environment"⟩
          searchCalled := false, modelCalled := false }) := by
  constructor
  · intro h
    unfold insight_search
    rw [h]
    rfl
  · intro h1 h2
    unfold insight_search
    rw [h1, h2]
    rfl

/-- Witness for the amended claim C2, at one environment missing the model
credential and one missing the search credential. -/
theorem insight_missing_credentials_witness :
    (insight_search ⟨none, some "mk"⟩ (.ok []) (.ok "text") =
      { result := .error ⟨500,
          "Insight error: 500: Missing OPENAI_API_KEY in environment"⟩
        searchCalled := false, modelCalled := false }) ∧
    (insight_search ⟨some "sk", some ""⟩ (.ok []) (.ok "text") =
      { result := .error ⟨500,
          "Insight error: 500: Missing MEILISEARCH_MASTER_KEY in environment"⟩
        searchCalled := false, modelCalled := false }) :=
  ⟨(insight_missing_credentials ⟨none, some "mk"⟩ (.ok []) (.ok "text")).1
      (by decide),
   (insight_missing_credentials ⟨some "sk", some ""⟩ (.ok []) (.ok "text")).2
      (by decide) (by decide)⟩

/-- Claim C3 counterexample: two hits share the identifier `A`; the second
hit's text `beta` occurs nowhere in the composed context, so the context
does not contain the text of every hit. -/
theorem insight_context_cex :
    ([⟨some "A", some "alpha"⟩, ⟨some "A", some "beta"⟩] : List InsHit) ≠ [] ∧
    (⟨some "A", some "beta"⟩ : InsHit) ∈
      ([⟨some "A", some "alpha"⟩, ⟨some "A", some "beta"⟩] : List InsHit) ∧
    contextOf [⟨some "A", some "alpha"⟩, ⟨some "A", some "beta"⟩] =
      "[A] alpha\n\n" ∧
    strContains
      (contextOf [⟨some "A", some "alpha"⟩, ⟨some "A", some "beta"⟩])
      "beta" = false := by
  exact ⟨by decide, by decide, rfl, by decide⟩

/-- Claim C3 (amended): the context is exactly the concatenation, in
ranking order, of one fragment `[identifier] text` plus blank line per
hit that is the first occurrence of its reading identifier; in particular
every such hit's tagged text occurs in the context. Hits whose identifier
already occurred earlier are omitted entirely. -/
theorem insight_context_first_occurrence (hits : List InsHit) (h : InsHit)
    (hm : h ∈ keepFirstByRid hits) :
    contextOf hits = concatBlocks (keepFirstByRid hits) ∧
    ∃ pre post, contextOf hits =
      pre ++ ("[" ++ ridOf h ++ "] " ++ textOf h ++ "\n\n") ++ post :=
  ⟨contextOf_eq hits, contextOf_split hits h hm⟩

/-- Witness for the amended claim C3 at a single-hit list. -/
theorem insight_context_first_occurrence_witness :
    contextOf [(⟨some "281-3", some "Prayer heals"⟩ : InsHit)] =
      concatBlocks (keepFirstByRid [(⟨some "281-3", some "Prayer heals"⟩ : InsHit)]) ∧
    ∃ pre post,
      contextOf [(⟨some "281-3", some "Prayer heals"⟩ : InsHit)] =
        pre ++ ("[" ++ ridOf ⟨some "281-3", some "Prayer heals"⟩ ++ "] "
          ++ textOf ⟨some "281-3", some "Prayer heals"⟩ ++ "\n\n") ++ post :=
  insight_context_first_occurrence _ ⟨some "281-3", some "Prayer heals"⟩
    (by simp [keepFirstByRid])

/-- Claim C4: with both credentials present, a search step whose composed
context is empty or whitespace-only (in particular, zero hits) makes the
handler return the fixed no-relevant-material answer with an empty source
list, and the generative model is not invoked. -/
theorem insight_blank_short_circuit (env : InsightEnv)
    (h1 : pyFalsy env.openaiKey = false) (h2 : pyFalsy env.meiliKey = false)
    (hits : List InsHit) (hblank : isBlank (contextOf hits) = true)
    (modelOutcome : Except String String) :
    insight_search env (.ok hits) modelOutcome =
      { result := .ok ⟨noRelevant, []⟩
        searchCalled := true, modelCalled := false } := by
  simp [insight_search, h1, h2, hblank]

/-- Witness for claim C4 at the zero-hits input. -/
theorem insight_blank_short_circuit_witness :
    insight_search ⟨some "sk", some "mk"⟩ (.ok []) (.ok "irrelevant") =
      { result := .ok ⟨noRelevant, []⟩
        searchCalled := true, modelCalled := false } :=
  insight_blank_short_circuit ⟨some "sk", some "mk"⟩ (by decide) (by decide)
    [] (by decide) (.ok "irrelevant")

/-- Claim C5: the sources list holds each distinct reading identifier of
the hits exactly once — it is duplicate-free, holds an identifier exactly
when some hit carries it, and equals the first-occurrence deduplication
of the hits' identifier sequence, so its order is the order of first
occurrence in ranking order. -/
theorem insight_sources_unique_ordered (hits : List InsHit) :
    (sourcesOf hits).Nodup ∧
    (∀ r : String, r ∈ sourcesOf hits ↔ r ∈ hits.map ridOf) ∧
    sourcesOf hits = dedupFirst (hits.map ridOf) := by
  refine ⟨sourcesOf_nodup hits, fun r => mem_sourcesOf r hits, ?_⟩
  rw [sourcesOf_eq, map_ridOf_keepFirstByRid]

/-- Claim C6: when the external index honors the requested limit, the
handler returns one result per hit in the hits' order, hence at most 10;
each result's fields follow the fallback rules (`id` from the hit's `id`
field, else its `reading_id`, else empty; `text` from `reading_text`;
`date` and `category` empty when absent). -/
theorem precision_search_shape (hits : List PrecHit)
    (hlim : hits.length ≤ precisionLimit) :
    (precision_search (.ok hits)).result = .ok (hits.map formatHit) ∧
    (hits.map formatHit).length = hits.length ∧
    (hits.map formatHit).length ≤ 10 ∧
    ∀ h : PrecHit,
      (formatHit h).id = (match h.id with
        | some v => v
        | none => match h.reading_id with
          | some r => r
          | none => "") ∧
      (formatHit h).reading_id = (match h.reading_id with
        | some r => r
        | none => "") ∧
      (formatHit h).text = (match h.reading_text with
        | some t => t
        | none => "") ∧
      (formatHit h).date = (match h.date with
        | some d => d
        | none => "") ∧
      (formatHit h).category = (match h.category with
        | some c => c
        | none => "") := by
  refine ⟨rfl, List.length_map _ _, ?_, ?_⟩
  · rw [List.length_map]
    exact hlim
  · intro h
    obtain ⟨i, r, t, d, c⟩ := h
    cases i <;> cases r <;> cases t <;> cases d <;> cases c <;>
      exact ⟨rfl, rfl, rfl, rfl, rfl⟩

/-- Witness for claim C6 at a one-hit list exercising the fallbacks. -/
theorem precision_search_shape_witness :
    (precision_search (.ok [(⟨none, some "900-1", some "Body", none, some "Health"⟩ : PrecHit)])).result =
      .ok ([(⟨none, some "900-1", some "Body", none, some "Health"⟩ : PrecHit)].map formatHit) ∧
    ([(⟨none, some "900-1", some "Body", none, some "Health"⟩ : PrecHit)].map formatHit).length =
      [(⟨none, some "900-1", some "Body", none, some "Health"⟩ : PrecHit)].length ∧
    ([(⟨none, some "900-1", some "Body", none, some "Health"⟩ : PrecHit)].map formatHit).length ≤ 10 ∧
    ∀ h : PrecHit,
      (formatHit h).id = (match h.id with
        | some v => v
        | none => match h.reading_id with
          | some r => r
          | none => "") ∧
      (formatHit h).reading_id = (match h.reading_id with
        | some r => r
        | none => "") ∧
      (formatHit h).text = (match h.reading_text with
        | some t => t
        | none => "") ∧
      (formatHit h).date = (match h.date with
        | some d => d
        | none => "") ∧
      (formatHit h).category = (match h.category with
        | some c => c
        | none => "") :=
  precision_search_shape [⟨none, some "900-1", some "Body", none, some "Health"⟩]
    (by decide)

/-- Claim C7: a raising external call surfaces as a 500 whose detail is
`"Meilisearch error: "` followed by the exception's message, and the
search call is issued exactly once per request, whatever the outcome. -/
theorem precision_search_error (msg : String) :
    (precision_search (.error msg)).result =
      .error ⟨500, "Meilisearch error: " ++ msg⟩ ∧
    ∀ searchOutcome : Except String (List PrecHit),
      (precision_search searchOutcome).searchCalls = 1 := by
  refine ⟨rfl, fun o => ?_⟩
  cases o <;> rfl

/-- Claim C8: on a successful request that reaches the model, the answer
is the model's generated text trimmed of surrounding whitespace with the
fixed disclaimer block appended unconditionally. -/
theorem insight_answer_disclaimer (env : InsightEnv)
    (h1 : pyFalsy env.openaiKey = false) (h2 : pyFalsy env.meiliKey = false)
    (hits : List InsHit) (hctx : isBlank (contextOf hits) = false)
    (content : String) :
    insight_search env (.ok hits) (.ok content) =
      { result := .ok ⟨content.trim ++ disclaimer, sourcesOf hits⟩
        searchCalled := true, modelCalled := true } := by
  simp [insight_search, h1, h2, hctx]

/-- Witness for claim C8 at a one-hit search and an untrimmed model
output. -/
theorem insight_answer_disclaimer_witness :
    insight_search ⟨some "sk", some "mk"⟩
      (.ok [(⟨some "281-3", some "Prayer heals"⟩ : InsHit)])
      (.ok "  An answer  ") =
      { result := .ok ⟨"  An answer  ".trim ++ disclaimer,
          sourcesOf [(⟨some "281-3", some "Prayer heals"⟩ : InsHit)]⟩
        searchCalled := true, modelCalled := true } :=
  insight_answer_disclaimer ⟨some "sk", some "mk"⟩ (by decide) (by decide)
    [⟨some "281-3", some "Prayer heals"⟩] (by decide) "  An answer  "

/-- Claim C9: a hit lacking a `reading_id` contributes the literal
identifier `Unknown`: it occurs in the sources (exactly once, not skipped
and not defaulted to empty), and the context holds a fragment prefixed
`[Unknown] `. -/
theorem insight_unknown_rid (hits : List InsHit) (h : InsHit)
    (hm : h ∈ hits) (hrid : h.reading_id = none) :
    "Unknown" ∈ sourcesOf hits ∧
    (sourcesOf hits).count "Unknown" = 1 ∧
    ∃ pre post, contextOf hits = pre ++ "[Unknown] " ++ post := by
  have hmem : "Unknown" ∈ sourcesOf hits := by
    rw [mem_sourcesOf]
    exact List.mem_map.mpr ⟨h, hm, by simp [ridOf, hrid]⟩
  refine ⟨hmem, List.count_eq_one_of_mem (sourcesOf_nodup hits) hmem, ?_⟩
  have hk : "Unknown" ∈ (keepFirstByRid hits).map ridOf := by
    rw [← sourcesOf_eq]
    exact hmem
  obtain ⟨g, hg, hgr⟩ := List.mem_map.mp hk
  obtain ⟨pre, post, hsplit⟩ := contextOf_split hits g hg
  refine ⟨pre, textOf g ++ "\n\n" ++ post, ?_⟩
  rw [hsplit]
  unfold block
  rw [hgr]
  have hlit : "[" ++ "Unknown" ++ "] " = "[Unknown] " := rfl
  rw [hlit]
  simp [String.append_assoc]

/-- Witness for claim C9 at a single hit lacking `reading_id`. -/
theorem insight_unknown_rid_witness :
    "Unknown" ∈ sourcesOf [(⟨none, some "text"⟩ : InsHit)] ∧
    (sourcesOf [(⟨none, some "text"⟩ : InsHit)]).count "Unknown" = 1 ∧
    ∃ pre post,
      contextOf [(⟨none, some "text"⟩ : InsHit)] = pre ++ "[Unknown] " ++ post :=
  insight_unknown_rid _ ⟨none, some "text"⟩ (by decide) rfl

/-- Claim C10: the composed context is blank exactly when the hit list is
empty (a non-empty hit list always contributes at least a bracketed
identifier), and whenever the model is invoked the successful response's
sources list is non-empty. -/
theorem insight_blank_iff_and_sources (hits : List InsHit) (env : InsightEnv)
    (modelOutcome : Except String String) :
    (isBlank (contextOf hits) = true ↔ hits = []) ∧
    ((insight_search env (.ok hits) modelOutcome).modelCalled = true →
      hits ≠ [] ∧
      ∀ resp : InsightResponse,
        (insight_search env (.ok hits) modelOutcome).result = .ok resp →
        resp.sources ≠ []) := by
  refine ⟨isBlank_contextOf_iff hits, ?_⟩
  intro hmc
  by_cases h1 : pyFalsy env.openaiKey = true
  · simp [insight_search, h1] at hmc
  rw [Bool.not_eq_true] at h1
  by_cases h2 : pyFalsy env.meiliKey = true
  · simp [insight_search, h1, h2] at hmc
  rw [Bool.not_eq_true] at h2
  by_cases hb : isBlank (contextOf hits) = true
  · simp [insight_search, h1, h2, hb] at hmc
  rw [Bool.not_eq_true] at hb
  have hne : hits ≠ [] := by
    intro hnil
    rw [(isBlank_contextOf_iff hits).mpr hnil] at hb
    simp at hb
  refine ⟨hne, ?_⟩
  intro resp hresp
  cases modelOutcome with
  | error e =>
    simp [insight_search, h1, h2, hb] at hresp
  | ok content =>
    simp [insight_search, h1, h2, hb] at hresp
    cases hits with
    | nil => exact absurd rfl hne
    | cons g t =>
      rw [← hresp]
      exact sourcesOf_ne_nil g t

/-- Witness for claim C10 at a one-hit search with a successful model
call. -/
theorem insight_blank_iff_and_sources_witness :
    (⟨"x".trim ++ disclaimer, ["A"]⟩ : InsightResponse).sources ≠ [] :=
  ((insight_blank_iff_and_sources [⟨some "A", some "t"⟩]
      ⟨some "sk", some "mk"⟩ (.ok "x")).2 (by decide)).2
    ⟨"x".trim ++ disclaimer, ["A"]⟩ (by rfl)

end CayceVault
